import Mathlib

/-
  Shallow embedding of the rendering core of the `raytracer.rs` repository.
  f64 arithmetic is modelled over ℝ (decimal literals become the exact
  rationals they denote); `f64::INFINITY`, which appears only as an upper
  distance bound and in comparisons, is modelled by `Option ℝ` upper bounds
  with `none` standing for +∞.  Every random draw (`rand::thread_rng`) is
  modelled as an explicit oracle argument.  Rust panics (assert!, index out
  of bounds) are modelled with `Except PanicKind`.
-/

namespace Raytracer

noncomputable section

/-- Value type of `Vec3<f64>` from src/vector.rs. -/
structure Vec3 where
  x : ℝ
  y : ℝ
  z : ℝ

@[ext] theorem Vec3.ext {a b : Vec3} (hx : a.x = b.x) (hy : a.y = b.y)
    (hz : a.z = b.z) : a = b := by
  cases a; cases b; simp_all

/-- `impl From<T> for Vec3<T>`: `Vec3::from(v)` broadcasts a scalar. -/
def Vec3.ofScalar (v : ℝ) : Vec3 := ⟨v, v, v⟩

instance : Add Vec3 := ⟨fun a b => ⟨a.x + b.x, a.y + b.y, a.z + b.z⟩⟩

instance : Sub Vec3 := ⟨fun a b => ⟨a.x - b.x, a.y - b.y, a.z - b.z⟩⟩

instance : Neg Vec3 := ⟨fun a => ⟨-a.x, -a.y, -a.z⟩⟩

/-- componentwise `impl Mul for Vec3<T>` -/
instance : Mul Vec3 := ⟨fun a b => ⟨a.x * b.x, a.y * b.y, a.z * b.z⟩⟩

/-- `impl Mul<T> for Vec3<T>` (vector times scalar) -/
instance : HMul Vec3 ℝ Vec3 := ⟨fun a s => ⟨a.x * s, a.y * s, a.z * s⟩⟩

/-- `impl Div<T> for Vec3<T>` (vector divided by scalar) -/
instance : HDiv Vec3 ℝ Vec3 := ⟨fun a s => ⟨a.x / s, a.y / s, a.z / s⟩⟩

@[simp] theorem Vec3.add_x (a b : Vec3) : (a + b).x = a.x + b.x := rfl
@[simp] theorem Vec3.add_y (a b : Vec3) : (a + b).y = a.y + b.y := rfl
@[simp] theorem Vec3.add_z (a b : Vec3) : (a + b).z = a.z + b.z := rfl
@[simp] theorem Vec3.sub_x (a b : Vec3) : (a - b).x = a.x - b.x := rfl
@[simp] theorem Vec3.sub_y (a b : Vec3) : (a - b).y = a.y - b.y := rfl
@[simp] theorem Vec3.sub_z (a b : Vec3) : (a - b).z = a.z - b.z := rfl
@[simp] theorem Vec3.neg_x (a : Vec3) : (-a).x = -a.x := rfl
@[simp] theorem Vec3.neg_y (a : Vec3) : (-a).y = -a.y := rfl
@[simp] theorem Vec3.neg_z (a : Vec3) : (-a).z = -a.z := rfl
@[simp] theorem Vec3.mul_x (a b : Vec3) : (a * b).x = a.x * b.x := rfl
@[simp] theorem Vec3.mul_y (a b : Vec3) : (a * b).y = a.y * b.y := rfl
@[simp] theorem Vec3.mul_z (a b : Vec3) : (a * b).z = a.z * b.z := rfl
@[simp] theorem Vec3.smul_x (a : Vec3) (s : ℝ) : (a * s).x = a.x * s := rfl
@[simp] theorem Vec3.smul_y (a : Vec3) (s : ℝ) : (a * s).y = a.y * s := rfl
@[simp] theorem Vec3.smul_z (a : Vec3) (s : ℝ) : (a * s).z = a.z * s := rfl
@[simp] theorem Vec3.divs_x (a : Vec3) (s : ℝ) : (a / s).x = a.x / s := rfl
@[simp] theorem Vec3.divs_y (a : Vec3) (s : ℝ) : (a / s).y = a.y / s := rfl
@[simp] theorem Vec3.divs_z (a : Vec3) (s : ℝ) : (a / s).z = a.z / s := rfl
@[simp] theorem Vec3.ofScalar_x (v : ℝ) : (Vec3.ofScalar v).x = v := rfl
@[simp] theorem Vec3.ofScalar_y (v : ℝ) : (Vec3.ofScalar v).y = v := rfl
@[simp] theorem Vec3.ofScalar_z (v : ℝ) : (Vec3.ofScalar v).z = v := rfl

/-- `Dot for Vec3` from src/vector.rs -/
def Vec3.dot (a b : Vec3) : ℝ := a.x * b.x + a.y * b.y + a.z * b.z

/-- `Cross for Vec3` from src/vector.rs -/
def Vec3.cross (a b : Vec3) : Vec3 :=
  ⟨a.y * b.z - a.z * b.y, a.z * b.x - a.x * b.z, a.x * b.y - a.y * b.x⟩

/-- `Magnitude::length`: `dot(self, self).sqrt()` -/
def Vec3.length (a : Vec3) : ℝ := Real.sqrt (Vec3.dot a a)

/-- `Magnitude::normalize`: `self / self.length()` -/
def Vec3.normalize (a : Vec3) : Vec3 := a / Vec3.length a

/-- `Lerp for Vec3`: `a + (b - a) * t` -/
def Vec3.lerp (a b : Vec3) (t : ℝ) : Vec3 := a + (b - a) * t

/-- `Ray` from src/ray.rs -/
structure Ray where
  origin : Vec3
  direction : Vec3

/-- `Ray::point_at`: `origin + direction * t` -/
def Ray.pointAt (r : Ray) (t : ℝ) : Vec3 := r.origin + r.direction * t

/-- `Hit` record from src/geometry.rs (the `t = f64::INFINITY` default never
escapes `Scene::hit`; the scene query below tracks the current bound
separately, see `Scene.hit`). -/
structure Hit where
  t : ℝ
  normal : Vec3
  point : Vec3
  idx : ℕ

/-- `reflect` from src/common.rs: `incident - normal * 2.0 * dot(incident, normal)` -/
def reflect (incident normal : Vec3) : Vec3 :=
  incident - normal * (2 : ℝ) * Vec3.dot incident normal

/-- Branch data computed at the top of `refract` (src/common.rs lines 24-34):
`cosi` made non-negative, the pair `(etai, etat)` swapped and the normal
flipped when the ray arrives from inside. -/
structure RefractParams where
  cosi : ℝ
  etai : ℝ
  etat : ℝ
  n : Vec3

def refract_params (incident normal : Vec3) (ior : ℝ) : RefractParams :=
  let cosi := Vec3.dot incident normal
  if cosi < 0 then ⟨-cosi, 1, ior, normal⟩ else ⟨cosi, ior, 1, -normal⟩

/-- The discriminant `k = 1 - eta * eta * (1 - cosi * cosi)` of `refract`. -/
def refract_discriminant (incident normal : Vec3) (ior : ℝ) : ℝ :=
  let p := refract_params incident normal ior
  let eta := p.etai / p.etat
  1 - eta * eta * (1 - p.cosi * p.cosi)

/-- `refract` from src/common.rs.  NOTE: when the discriminant is negative
(total internal reflection) the source returns `Vec3f::from(0.0)`, the zero
vector. -/
def refract (incident normal : Vec3) (ior : ℝ) : Vec3 :=
  let p := refract_params incident normal ior
  let eta := p.etai / p.etat
  let k := refract_discriminant incident normal ior
  if k < 0 then Vec3.ofScalar 0
  else incident * eta + p.n * (eta * p.cosi - Real.sqrt k)

/-- `fresnel` from src/common.rs lines 61-80.  NOTE: the function returns
`1.0 - kr`, i.e. the transmittance, not the reflectance `kr`. -/
def fresnel (incident normal : Vec3) (ior : ℝ) : ℝ :=
  let cosi := Vec3.dot incident normal
  let etai : ℝ := 1
  let etat := ior
  let sint := etai / etat * Real.sqrt (max 0 (1 - cosi * cosi))
  let kr :=
    if 1 ≤ sint then 1
    else
      let cost := Real.sqrt (max 0 (1 - sint * sint))
      let cosi' := |cosi|
      let rs := (etat * cosi' - etai * cost) / (etat * cosi' + etai * cost)
      let rp := (etai * cosi' - etat * cost) / (etai * cosi' + etat * cost)
      (rs * rs + rp * rp) / 2
  1 - kr

/-- The helper axis chosen at the top of `Onb::new` (src/onb.rs lines 13-17):
the world Y axis when `up.x.abs() > 0.9`, otherwise the world X axis. -/
def helper_axis (up : Vec3) : Vec3 :=
  if 0.9 < |up.x| then ⟨0, 1, 0⟩ else ⟨1, 0, 0⟩

/-- `Onb` from src/onb.rs; the source stores `axis: [right, front, up]` with
accessors `right()/front()/up()`, modelled as three fields. -/
structure Onb where
  right : Vec3
  front : Vec3
  up : Vec3

/-- `Onb::new` from src/onb.rs. -/
def Onb.new (up : Vec3) : Onb :=
  let a := helper_axis up
  let front := Vec3.normalize (Vec3.cross up a)
  let right := Vec3.cross up front
  ⟨right, front, up⟩

/-- `Onb::transform`: `right * a.x + front * a.y + up * a.z` -/
def Onb.transform (o : Onb) (a : Vec3) : Vec3 :=
  o.right * a.x + o.front * a.y + o.up * a.z

/-- `Onb::local_to_world` -/
def Onb.local_to_world (w a : Vec3) : Vec3 :=
  (Onb.new w).transform (Vec3.normalize a)

/-- `MaterialType` from src/material.rs -/
inductive MaterialType where
  | Mirror
  | Uniform
  | Lambert
  | Physical
  | Transparent
deriving DecidableEq

/-- `Material` from src/material.rs -/
structure Material where
  albedo : Vec3
  emittance : ℝ
  roughness : ℝ
  ior : ℝ
  metallic : ℝ
  material : MaterialType

/-- `fresnel_schlick` from src/material.rs -/
def fresnel_schlick (f0 : Vec3) (cos_theta : ℝ) : Vec3 :=
  f0 + (Vec3.ofScalar 1 - f0) * ((max 0 (min (1 - cos_theta) 1)) ^ (5 : ℕ))

/-- `distribution_ggx` from src/material.rs -/
def distribution_ggx (normal halfway : Vec3) (roughness : ℝ) : ℝ :=
  let a2 := roughness * roughness
  let ndoth := max (Vec3.dot normal halfway) 0
  let ndoth2 := ndoth * ndoth
  let nom := a2
  let denom := ndoth2 * (a2 - 1) + 1
  nom / (Real.pi * denom * denom)

/-- `geometry_schlick_ggx` from src/material.rs -/
def geometry_schlick_ggx (ndotv roughness : ℝ) : ℝ :=
  let r := roughness + 1
  let k := r * r / 8
  ndotv / (ndotv * (1 - k) + k)

/-- `geometry_smith` from src/material.rs -/
def geometry_smith (normal wo wi : Vec3) (roughness : ℝ) : ℝ :=
  let ndotv := max (Vec3.dot normal wo) 0
  let ndotl := max (Vec3.dot normal wi) 0
  geometry_schlick_ggx ndotl roughness * geometry_schlick_ggx ndotv roughness

/-- `Material::sample` (`BSDF::sample` impl, src/material.rs lines 125-193).
Random draws are explicit oracles: `rnd` is the `gen_range(0.0..1.0)` draw of
the Transparent arm, `hemi` the direction drawn by
`cosine_weighted_hemisphere()` / `uniform_hemisphere()` for the diffuse and
physically-based arms.  Returns the new direction `wi` and the weight. -/
def Material.sample (m : Material) (normal wo : Vec3) (rnd : ℝ) (hemi : Vec3) :
    Vec3 × Vec3 :=
  match m.material with
  | .Mirror => (reflect (-wo) normal, m.albedo)
  | .Transparent =>
      let fr := fresnel (-wo) normal m.ior
      if rnd ≤ fr then
        let wi := refract (-wo) normal m.ior
        (wi, m.albedo * fr)
      else
        let wi := reflect (-wo) normal
        (wi, m.albedo * (1 - fr))
  | .Lambert =>
      let wi := Onb.local_to_world normal hemi
      let cos_theta := Vec3.dot normal wi
      let pdf := cos_theta / Real.pi
      let brdf := m.albedo / Real.pi
      (wi, brdf * cos_theta / pdf)
  | .Uniform =>
      let pdf := 1 / (2 * Real.pi)
      let wi := Onb.local_to_world normal hemi
      let cos_theta := Vec3.dot normal wi
      let brdf := m.albedo / Real.pi
      (wi, brdf * cos_theta / pdf)
  | .Physical =>
      let wi := Onb.local_to_world normal hemi
      let cos_theta := Vec3.dot normal wi
      let pdf := cos_theta / Real.pi
      let halfway := Vec3.normalize (wo + wi)
      let f0 := Vec3.lerp (Vec3.ofScalar 0.04) m.albedo m.metallic
      let fresnel := fresnel_schlick f0 cos_theta
      let distribution := distribution_ggx normal halfway m.roughness
      let geometry := geometry_smith normal wo wi m.roughness
      let bsdf := fresnel * distribution * geometry /
        (4 * cos_theta * Vec3.dot normal wo)
      (wi, bsdf * cos_theta / pdf)

/-- `Sphere` from src/geometry.rs -/
structure Sphere where
  center : Vec3
  radius : ℝ

/-- `Triangle(pub Vec3f, pub Vec3f, pub Vec3f)` from src/geometry.rs; the
tuple fields `.0 .1 .2` are named `v0 v1 v2`. -/
structure Triangle where
  v0 : Vec3
  v1 : Vec3
  v2 : Vec3

/-- `Mesh` from src/geometry.rs -/
structure Mesh where
  triangles : List Triangle

/-- `Geometry` from src/geometry.rs -/
inductive Geometry where
  | MESH (m : Mesh)
  | SPHERE (s : Sphere)

/-- `Object` from src/geometry.rs -/
structure Object where
  geometry : Geometry
  material : Material

/-- `Scene` from src/geometry.rs.  The renderer (`trace_loop_2` in
src/renderer.rs) iterates `scene.lights` as indices into `scene.objects`
(`let light = scene.objects[i]`), matching the light-index data model; the
lights list is therefore a list of object indices.  `Scene::hit` never reads
`lights`. -/
structure Scene where
  background : Vec3
  lights : List ℕ
  objects : List Object

/-- `f64::EPSILON` = 2⁻⁵² -/
def f64_EPSILON : ℝ := 1 / 2 ^ 52

/-- `t < max_t` where `max_t : Option ℝ` models a possibly infinite upper
bound (`none` = `f64::INFINITY`). -/
def ltMax (t : ℝ) : Option ℝ → Prop
  | none => True
  | some m => t < m

instance (t : ℝ) : (m : Option ℝ) → Decidable (ltMax t m)
  | none => isTrue trivial
  | some m => inferInstanceAs (Decidable (t < m))

/-- `t > max_t` for an optional upper bound; a finite float is never greater
than `f64::INFINITY`. -/
def gtMax (t : ℝ) : Option ℝ → Prop
  | none => False
  | some m => m < t

instance (t : ℝ) : (m : Option ℝ) → Decidable (gtMax t m)
  | none => isFalse id
  | some m => inferInstanceAs (Decidable (m < t))

/-- `impl Hittable for Sphere` (src/geometry.rs lines 190-218). -/
def Sphere.hit (s : Sphere) (ray : Ray) (min_t : ℝ) (max_t : Option ℝ) :
    Option Hit :=
  let m := ray.origin - s.center
  let b := Vec3.dot m ray.direction
  let c := Vec3.dot m m - s.radius * s.radius
  if 0 < c ∧ 0 < b then none
  else
    let discr := b * b - c
    if discr < 0 then none
    else
      let t0 := -b - Real.sqrt discr
      let t := if t0 < 0 then -b + Real.sqrt discr else t0
      if min_t < t ∧ ltMax t max_t then
        let point := ray.pointAt t
        some ⟨t, (point - s.center) / s.radius, point, 0⟩
      else none

/-- `impl Hittable for Triangle` (src/geometry.rs lines 220-265).  NOTE the
source's distance-range rejection reads `if t < min_t && t > max_t`, a
conjunction that no `t` satisfies once `min_t < max_t`, so the range is
never enforced. -/
def Triangle.hit (tri : Triangle) (ray : Ray) (min_t : ℝ) (max_t : Option ℝ) :
    Option Hit :=
  let v0v1 := tri.v1 - tri.v0
  let v0v2 := tri.v2 - tri.v0
  let v1v2 := tri.v2 - tri.v1
  let v2v0 := tri.v0 - tri.v2
  let normal := Vec3.normalize (Vec3.cross v0v1 v0v2)
  let ndot := Vec3.dot normal ray.direction
  if |ndot| < f64_EPSILON then none
  else
    let d := -(Vec3.dot normal tri.v0)
    let t := -(Vec3.dot normal ray.origin + d) / ndot
    if t < min_t ∧ gtMax t max_t then none
    else
      let point := ray.pointAt t
      let vp0 := point - tri.v0
      if Vec3.dot normal (Vec3.cross v0v1 vp0) < 0 then none
      else
        let vp1 := point - tri.v1
        if Vec3.dot normal (Vec3.cross v1v2 vp1) < 0 then none
        else
          let vp2 := point - tri.v2
          if Vec3.dot normal (Vec3.cross v2v0 vp2) < 0 then none
          else some ⟨t, normal, point, 0⟩

/-- `impl Hittable for Mesh` (src/geometry.rs lines 267-277): returns the
FIRST triangle (in list order) whose `hit` is `Some`, not the nearest. -/
def Mesh.hit (mesh : Mesh) (ray : Ray) (min_t : ℝ) (max_t : Option ℝ) :
    Option Hit :=
  mesh.triangles.findSome? fun triangle => triangle.hit ray min_t max_t

/-- `impl Hittable for Geometry` -/
def Geometry.hit (g : Geometry) (ray : Ray) (min_t : ℝ) (max_t : Option ℝ) :
    Option Hit :=
  match g with
  | .MESH m => m.hit ray min_t max_t
  | .SPHERE s => s.hit ray min_t max_t

/-- Loop of `impl Hittable for Scene` (src/geometry.rs lines 288-306).
`closest` starts as the default `Hit` with `t = max_t`; here `none` stands
for that initial record (whose only observable field is its `t`, recovered
as `max_t`), and `some h` for the record after at least one accepted hit. -/
def Scene.hitAux (ray : Ray) (min_t : ℝ) (max_t : Option ℝ) :
    List Object → ℕ → Option Hit → Option Hit
  | [], _, closest => closest
  | obj :: rest, i, closest =>
      let bound := match closest with
        | some h => some h.t
        | none => max_t
      match obj.geometry.hit ray min_t bound with
      | some h => Scene.hitAux ray min_t max_t rest (i + 1) (some { h with idx := i })
      | none => Scene.hitAux ray min_t max_t rest (i + 1) closest

/-- `impl Hittable for Scene`: the final test is `closest.t < max_t`. -/
def Scene.hit (s : Scene) (ray : Ray) (min_t : ℝ) (max_t : Option ℝ) :
    Option Hit :=
  match Scene.hitAux ray min_t max_t s.objects 0 none with
  | some h => if ltMax h.t max_t then some h else none
  | none => none

/-- `f64::clamp(lo, hi)` -/
def rclamp (x lo hi : ℝ) : ℝ := if x < lo then lo else if hi < x then hi else x

/-- `f64::signum` (NaN excepted): 1.0 for non-negative values (including
+0.0), -1.0 for negative values. -/
def rsignum (x : ℝ) : ℝ := if x < 0 then -1 else 1

/-- Rust panics reachable from `trace_loop_2`: the
`assert_eq!(scene.lights.len(), 1)`, an out-of-bounds `scene.objects[i]`,
and the `light.geometry.center/radius` field accesses that require the light
object's geometry to be a sphere. -/
inductive PanicKind where
  | assertionFailed
  | indexOutOfBounds
  | fieldAccess
deriving DecidableEq

/-- Oracles for the random draws made inside `trace_loop_2`: `hemi b` is the
value of `cosine_weighted_hemisphere()` at bounce `b`, `sphere b j` the value
of `vector_on_sphere()` at bounce `b` for the j-th entry of the lights
list. -/
structure RndStream where
  hemi : ℕ → Vec3
  sphere : ℕ → ℕ → Vec3

/-- The `for &i in &scene.lights` loop of `trace_loop_2`
(src/renderer.rs lines 150-206), returning the summed direct-light radiance
added in this bounce.  `throughput` is the throughput AFTER the
`throughput *= material.albedo` update, as in the source.  The `if true`
branch of the source is the live one; its `else` branch is dead code and is
not modelled. -/
def lightLoop (scene : Scene) (rnd : RndStream) (bounce max_bounce : ℕ)
    (hit : Hit) (material : Material) (point : Vec3) (throughput : Vec3) :
    List ℕ → ℕ → Except PanicKind Vec3
  | [], _ => .ok (Vec3.ofScalar 0)
  | i :: rest, j =>
    if hit.idx ≠ i then
      match scene.objects.get? i with
      | none => .error .indexOutOfBounds
      | some light =>
        match light.geometry with
        | .MESH _ => .error .fieldAccess
        | .SPHERE sph =>
          let emission := light.material.albedo * light.material.emittance
          let light_normal := Vec3.normalize (rnd.sphere bounce j)
          let point_on_light := sph.center + light_normal * sph.radius
          let shadow_ray : Ray := ⟨point, Vec3.normalize (point_on_light - point)⟩
          let contrib :=
            match Scene.hit scene shadow_ray (1 / 1000) none with
            | some light_hit =>
              if light_hit.idx = i ∧
                  0 < Vec3.dot light_normal (-shadow_ray.direction) ∧
                  bounce < max_bounce - 1 then
                let cos_theta := Vec3.dot hit.normal shadow_ray.direction
                let radius2 := sph.radius * sph.radius
                let area := 4 * Real.pi * radius2
                let distance2 := light_hit.t * light_hit.t
                let cos_theta_light :=
                  rclamp (Vec3.dot light_normal (-shadow_ray.direction)) 0 1
                let pdf := distance2 / (cos_theta_light * area)
                let brdf := material.albedo / Real.pi
                throughput * emission * cos_theta * brdf / pdf
              else Vec3.ofScalar 0
            | none => Vec3.ofScalar 0
          match lightLoop scene rnd bounce max_bounce hit material point
              throughput rest (j + 1) with
          | .ok rad => .ok (contrib + rad)
          | .error e => .error e
    else lightLoop scene rnd bounce max_bounce hit material point throughput
      rest (j + 1)

/-- Body of the `for bounce in 0..max_bounce` loop of `trace_loop_2`
(src/renderer.rs lines 127-214); `fuel = max_bounce - bounce` drives the
structural recursion. -/
def trace_loop_2_go (scene : Scene) (rnd : RndStream) (max_bounce : ℕ) :
    ℕ → ℕ → Ray → Vec3 → Vec3 → Except PanicKind Vec3
  | 0, _, _, radiance, _ => .ok radiance
  | fuel + 1, bounce, ray, radiance, throughput =>
    match Scene.hit scene ray (1 / 1000) none with
    | none => .ok (radiance + scene.background * throughput)
    | some hit =>
      match scene.objects.get? hit.idx with
      | none => .error .indexOutOfBounds
      | some obj =>
        let material := obj.material
        let point := hit.point + hit.normal * (1 / 1000 : ℝ)
        let wi := Onb.local_to_world hit.normal (rnd.hemi bounce)
        let ray' : Ray := ⟨point, wi⟩
        let radiance' :=
          if bounce = 0 then radiance + throughput * (material.albedo * material.emittance)
          else radiance
        let throughput' := throughput * material.albedo
        if scene.lights.length = 1 then
          match lightLoop scene rnd bounce max_bounce hit material point
              throughput' scene.lights 0 with
          | .ok direct =>
            trace_loop_2_go scene rnd max_bounce fuel (bounce + 1) ray'
              (radiance' + direct) throughput'
          | .error e => .error e
        else .error .assertionFailed

/-- `Renderer::trace_loop_2` (src/renderer.rs lines 127-214): iterative path
tracer with explicit light sampling; `radiance` starts at 0, `throughput` at
`Vec3::from(1.0)`. -/
def trace_loop_2 (incident : Ray) (scene : Scene) (max_bounce : ℕ)
    (rnd : RndStream) : Except PanicKind Vec3 :=
  trace_loop_2_go scene rnd max_bounce max_bounce 0 incident
    (Vec3.ofScalar 0) (Vec3.ofScalar 1)

/-- Oracles for the random draws of `Material::sample` along a recursive
`Renderer::trace` path, indexed by remaining fuel. -/
structure TraceRnd where
  r : ℕ → ℝ
  hemi : ℕ → Vec3

/-- `Renderer::trace` (src/renderer.rs lines 252-262) with the body of
`naive_path_tracing` (lines 108-120) inlined at its single call site.  The
source recursion is NOT structurally bounded: `naive_path_tracing` recurses
with `depth + 1` while `trace` only stops at `depth = 0`, so once `depth > 0`
and geometry keeps being hit the recursion never terminates.  An explicit
`fuel` argument makes the function total; `none` means the source would
still be recursing after `fuel` nested calls. -/
def Renderer.trace (scene : Scene) (rnd : TraceRnd) :
    ℕ → Ray → ℕ → Option Vec3
  | 0, _, _ => none
  | fuel + 1, ray, depth =>
    if 0 < depth then
      match Scene.hit scene ray (1 / 1000) none with
      | some hit =>
        match scene.objects.get? hit.idx with
        | none => none
        | some obj =>
          let material := obj.material
          let emittance := material.albedo * material.emittance
          let wo := -ray.direction
          let swi := material.sample hit.normal wo (rnd.r fuel) (rnd.hemi fuel)
          let wi := swi.1
          let brdf_multiplier := swi.2
          let bias := rsignum (Vec3.dot wi hit.normal) * (1 / 1000)
          let ray' : Ray := ⟨hit.point + hit.normal * bias, wi⟩
          match Renderer.trace scene rnd fuel ray' (depth + 1) with
          | some rec_radiance => some (emittance + rec_radiance * brdf_multiplier)
          | none => none
      | none => some scene.background
    else some (Vec3.ofScalar 0)

/-- `get_xy` from src/renderer.rs lines 19-23. -/
def get_xy (index width : ℕ) : ℕ × ℕ := (index % width, index / width)

/-- `chunk_size = framebuffer.len() / worker_count` from
`Renderer::render_multithreaded` (src/renderer.rs line 302). -/
def chunk_size (n worker_count : ℕ) : ℕ := n / worker_count

/-- Number of slices produced by `framebuffer.chunks_mut(cs)` on a buffer of
length `n`: `⌈n / cs⌉`, all of size `cs` except a final remainder slice. -/
def num_chunks (n cs : ℕ) : ℕ := (n + cs - 1) / cs

/-- Global pixel indices covered by worker `w`'s chunk: the worker writes
`chunk[i]` for `i < chunk.len()` at pixel `worker * chunk_size + i`
(src/renderer.rs lines 307-318). -/
def chunk_indices (n cs w : ℕ) : Finset ℕ :=
  Finset.Ico (w * cs) (min ((w + 1) * cs) n)

/-! Basic algebraic facts about the vector library. -/

theorem Vec3.dot_self_nonneg (v : Vec3) : 0 ≤ Vec3.dot v v := by
  unfold Vec3.dot
  nlinarith [sq_nonneg v.x, sq_nonneg v.y, sq_nonneg v.z]

theorem Vec3.length_eq_one_iff (v : Vec3) :
    Vec3.length v = 1 ↔ Vec3.dot v v = 1 := by
  unfold Vec3.length
  constructor
  · intro h
    have h2 := congrArg (fun t => t * t) h
    simpa [Real.mul_self_sqrt (Vec3.dot_self_nonneg v)] using h2
  · intro h
    rw [h, Real.sqrt_one]

theorem Vec3.dot_cross_left (u v : Vec3) : Vec3.dot (Vec3.cross u v) u = 0 := by
  unfold Vec3.dot Vec3.cross; ring

theorem Vec3.dot_cross_right (u v : Vec3) : Vec3.dot (Vec3.cross u v) v = 0 := by
  unfold Vec3.dot Vec3.cross; ring

/-- Lagrange identity for the cross product. -/
theorem Vec3.dot_cross_self (u v : Vec3) :
    Vec3.dot (Vec3.cross u v) (Vec3.cross u v) =
      Vec3.dot u u * Vec3.dot v v - Vec3.dot u v * Vec3.dot u v := by
  unfold Vec3.dot Vec3.cross; ring

theorem Vec3.dot_divs (u v : Vec3) (s : ℝ) :
    Vec3.dot u (v / s) = Vec3.dot u v / s := by
  unfold Vec3.dot; simp only [Vec3.divs_x, Vec3.divs_y, Vec3.divs_z]; ring

theorem Vec3.dot_divs_left (u : Vec3) (s : ℝ) (v : Vec3) :
    Vec3.dot (u / s) v = Vec3.dot u v / s := by
  unfold Vec3.dot; simp only [Vec3.divs_x, Vec3.divs_y, Vec3.divs_z]; ring

theorem Vec3.dot_comm (u v : Vec3) : Vec3.dot u v = Vec3.dot v u := by
  unfold Vec3.dot; ring

/-- Claim C10: for a unit normal and unit outgoing direction the Mirror arm
of `Material::sample` preserves the angle of incidence — the dot product of
the returned direction with the normal equals the dot product of the
outgoing direction with the normal — and the returned weight equals the
albedo exactly, hence is componentwise no greater than the albedo. -/
theorem mirror_sample_preserves_incidence (m : Material) (normal wo : Vec3)
    (rnd : ℝ) (hemi : Vec3) (hm : m.material = MaterialType.Mirror)
    (hn : Vec3.length normal = 1) (hwo : Vec3.length wo = 1) :
    Vec3.dot (m.sample normal wo rnd hemi).1 normal = Vec3.dot wo normal ∧
    (m.sample normal wo rnd hemi).2 = m.albedo ∧
    (m.sample normal wo rnd hemi).2.x ≤ m.albedo.x ∧
    (m.sample normal wo rnd hemi).2.y ≤ m.albedo.y ∧
    (m.sample normal wo rnd hemi).2.z ≤ m.albedo.z := by
  have hnn : Vec3.dot normal normal = 1 := (Vec3.length_eq_one_iff normal).mp hn
  unfold Material.sample
  rw [hm]
  refine ⟨?_, rfl, le_refl _, le_refl _, le_refl _⟩
  unfold reflect Vec3.dot at hnn ⊢
  simp only [Vec3.sub_x, Vec3.sub_y, Vec3.sub_z, Vec3.smul_x, Vec3.smul_y,
    Vec3.smul_z, Vec3.neg_x, Vec3.neg_y, Vec3.neg_z]
  linear_combination (2 * (wo.x * normal.x + wo.y * normal.y + wo.z * normal.z)) * hnn

/-- A concrete Mirror material used to witness C10. -/
def demoMirror : Material := ⟨⟨1, 2, 3⟩, 0, 0, 1, 0, MaterialType.Mirror⟩

/-- The unit vector (0,0,1). -/
def e3 : Vec3 := ⟨0, 0, 1⟩

/-- Witness for C10 at `normal = wo = (0,0,1)`. -/
theorem mirror_sample_preserves_incidence_witness :
    Vec3.length e3 = 1 ∧
    (Vec3.dot (demoMirror.sample e3 e3 0 e3).1 e3 = Vec3.dot e3 e3 ∧
     (demoMirror.sample e3 e3 0 e3).2 = demoMirror.albedo ∧
     (demoMirror.sample e3 e3 0 e3).2.x ≤ demoMirror.albedo.x ∧
     (demoMirror.sample e3 e3 0 e3).2.y ≤ demoMirror.albedo.y ∧
     (demoMirror.sample e3 e3 0 e3).2.z ≤ demoMirror.albedo.z) := by
  have hlen : Vec3.length e3 = 1 := by
    simp [Vec3.length, Vec3.dot, e3, Real.sqrt_one]
  exact ⟨hlen, mirror_sample_preserves_incidence demoMirror e3 e3 0 e3 rfl hlen hlen⟩

/-- Claim C3: the Lambert arm of `Material::sample` returns weight
`(albedo/π) * cosθ / (cosθ/π)`, which collapses exactly to the albedo
whenever the sampled direction's cosine is non-zero. -/
theorem lambert_sample_weight_collapses (m : Material) (normal wo : Vec3)
    (rnd : ℝ) (hemi : Vec3) (hm : m.material = MaterialType.Lambert)
    (hcos : Vec3.dot normal (Onb.local_to_world normal hemi) ≠ 0) :
    (m.sample normal wo rnd hemi).2 = m.albedo := by
  unfold Material.sample
  rw [hm]
  have hpi := Real.pi_ne_zero
  ext <;>
    simp only [Vec3.divs_x, Vec3.divs_y, Vec3.divs_z, Vec3.smul_x,
      Vec3.smul_y, Vec3.smul_z] <;>
    field_simp

/-- Evaluation of the orthonormal-basis transform at `w = a = (0,0,1)`. -/
theorem onb_local_to_world_e3 : Onb.local_to_world e3 e3 = e3 := by
  unfold Onb.local_to_world Onb.new Onb.transform helper_axis
  rw [if_neg (by simp [e3]; norm_num)]
  simp only [e3, Vec3.cross, Vec3.normalize, Vec3.length, Vec3.dot]
  norm_num [Real.sqrt_one]
  ext <;> norm_num [Vec3.cross, Vec3.dot]

/-- A concrete Lambert material used to witness C3. -/
def demoLambert : Material := ⟨⟨1, 2, 3⟩, 0, 0, 1, 0, MaterialType.Lambert⟩

/-- Witness for C3 at `normal = hemi = (0,0,1)`. -/
theorem lambert_sample_weight_collapses_witness :
    Vec3.dot e3 (Onb.local_to_world e3 e3) ≠ 0 ∧
    (demoLambert.sample e3 e3 0 e3).2 = demoLambert.albedo := by
  have hcos : Vec3.dot e3 (Onb.local_to_world e3 e3) ≠ 0 := by
    rw [onb_local_to_world_e3]
    simp [Vec3.dot, e3]
  exact ⟨hcos, lambert_sample_weight_collapses demoLambert e3 e3 0 e3 rfl hcos⟩

/-- The helper-axis selection that §4.3 of the spec describes: the world Y
axis unless `|w.x| > 0.9`, in which case the world X axis.  Stated only to
be compared against the source's `helper_axis`. -/
def spec_helper_axis (w : Vec3) : Vec3 :=
  if 0.9 < |w.x| then ⟨1, 0, 0⟩ else ⟨0, 1, 0⟩

/-- Counterexample for C9: at `w = (1,0,0)` the source picks the world Y
axis while the claim says it picks the world X axis; the two selection
rules are swapped. -/
theorem helper_axis_swapped_counterexample :
    helper_axis ⟨1, 0, 0⟩ = ⟨0, 1, 0⟩ ∧
    spec_helper_axis ⟨1, 0, 0⟩ = ⟨1, 0, 0⟩ ∧
    helper_axis ⟨1, 0, 0⟩ ≠ spec_helper_axis ⟨1, 0, 0⟩ := by
  have hx : (⟨1, 0, 0⟩ : Vec3).x = 1 := rfl
  have h1 : helper_axis ⟨1, 0, 0⟩ = ⟨0, 1, 0⟩ := by
    unfold helper_axis
    rw [if_pos (by rw [hx]; norm_num)]
  have h2 : spec_helper_axis ⟨1, 0, 0⟩ = ⟨1, 0, 0⟩ := by
    unfold spec_helper_axis
    rw [if_pos (by rw [hx]; norm_num)]
  refine ⟨h1, h2, ?_⟩
  rw [h1, h2]
  intro h
  have hy := congrArg Vec3.x h
  norm_num at hy

/-- Amended C9: `Onb::new(w)` picks the helper axis as the world X axis
unless `|w.x| > 0.9`, in which case the world Y axis; it then sets
`front = normalize(cross(w, a))` and `right = cross(w, front)` (the v and u
axes of the claim). -/
theorem onb_new_axes (w : Vec3) :
    helper_axis w = (if 0.9 < |w.x| then ⟨0, 1, 0⟩ else ⟨1, 0, 0⟩) ∧
    (Onb.new w).front = Vec3.normalize (Vec3.cross w (helper_axis w)) ∧
    (Onb.new w).right = Vec3.cross w (Onb.new w).front ∧
    (Onb.new w).up = w :=
  ⟨rfl, rfl, rfl, rfl⟩

/-- Evaluation of `fresnel` at normal incidence with `ior = 3`: the source
returns `1 - kr = 3/4` (the transmittance of the 1/4 Fresnel reflectance). -/
theorem fresnel_normal_incidence_ior3 :
    fresnel ⟨0, 0, -1⟩ ⟨0, 0, 1⟩ 3 = 3 / 4 := by
  unfold fresnel
  simp only [Vec3.dot]
  norm_num [Real.sqrt_one]

/-- A concrete Transparent material (white albedo, `ior = 3`). -/
def demoTransparent : Material := ⟨⟨1, 1, 1⟩, 0, 0, 3, 0, MaterialType.Transparent⟩

/-- Claim C2, evaluated at its failing input (cited as a code bug): at
normal incidence with `ior = 3` the branch probability is `fr = 3/4` and the
refraction branch (draw `r = 0 ≤ fr`) returns weight `albedo * fr =
(3/4,3/4,3/4)`, NOT the albedo `(1,1,1)`: `Material::sample`'s Transparent
arm multiplies the weight by the branch probability instead of dividing by
it. -/
theorem transparent_weight_not_albedo :
    (demoTransparent.sample e3 e3 0 e3).2 = ⟨3 / 4, 3 / 4, 3 / 4⟩ ∧
    demoTransparent.albedo = ⟨1, 1, 1⟩ ∧
    (demoTransparent.sample e3 e3 0 e3).2 ≠ demoTransparent.albedo := by
  have hfr : fresnel (-e3) e3 3 = 3 / 4 := by
    have h1 : -e3 = (⟨0, 0, -1⟩ : Vec3) := by ext <;> simp [e3]
    rw [h1, show e3 = (⟨0, 0, 1⟩ : Vec3) from rfl]
    exact fresnel_normal_incidence_ior3
  have hsample : (demoTransparent.sample e3 e3 0 e3).2 = ⟨3 / 4, 3 / 4, 3 / 4⟩ := by
    unfold Material.sample demoTransparent
    simp only
    rw [hfr, if_pos (by norm_num)]
    ext <;> norm_num
  refine ⟨hsample, rfl, ?_⟩
  rw [hsample]
  intro h
  have hx := congrArg Vec3.x h
  simp [demoTransparent] at hx
  norm_num at hx

/-- `refract` returns the zero vector — not a reflection — whenever the
refraction discriminant is negative. -/
theorem refract_tir_zero (incident normal : Vec3) (ior : ℝ)
    (h : refract_discriminant incident normal ior < 0) :
    refract incident normal ior = Vec3.ofScalar 0 := by
  unfold refract
  simp only [if_pos h]

/-- Amended C7: whenever the Transparent arm's stochastic branch chooses
refraction (`rnd ≤ fr`) while the refraction discriminant is negative
(total internal reflection), the sampled continuation direction is the ZERO
vector — `refract`'s TIR result — not the mirror reflection, and it has
zero length. -/
theorem transparent_tir_returns_zero (m : Material) (normal wo : Vec3)
    (rnd : ℝ) (hemi : Vec3) (hm : m.material = MaterialType.Transparent)
    (hbr : rnd ≤ fresnel (-wo) normal m.ior)
    (htir : refract_discriminant (-wo) normal m.ior < 0) :
    (m.sample normal wo rnd hemi).1 = Vec3.ofScalar 0 ∧
    Vec3.length (m.sample normal wo rnd hemi).1 = 0 := by
  have hz : (m.sample normal wo rnd hemi).1 = Vec3.ofScalar 0 := by
    unfold Material.sample
    rw [hm]
    simp only [if_pos hbr]
    exact refract_tir_zero _ _ _ htir
  refine ⟨hz, ?_⟩
  rw [hz]
  unfold Vec3.length Vec3.dot
  norm_num

/-- Incident direction for the concrete TIR scenario: the unit vector
`(-√3/2, -1/2, 0)` leaving a medium of relative index `1/2` through the
surface with normal `(0,1,0)`. -/
def tirIncident : Vec3 := ⟨-(Real.sqrt 3 / 2), -(1 / 2), 0⟩

/-- At the concrete TIR scenario the source `fresnel` hits its
`sint >= 1.0` branch and returns `1 - 1 = 0`. -/
theorem fresnel_tir_eval : fresnel tirIncident ⟨0, 1, 0⟩ (1 / 2) = 0 := by
  have h14 : Real.sqrt (1 / 4) = 1 / 2 := by
    rw [show (1 / 4 : ℝ) = (1 / 2) ^ 2 by norm_num,
      Real.sqrt_sq (by norm_num : (0 : ℝ) ≤ 1 / 2)]
  have h34 : (1 / 2 : ℝ) ≤ Real.sqrt (3 / 4) := by
    rw [← h14]
    exact Real.sqrt_le_sqrt (by norm_num)
  unfold fresnel tirIncident
  simp only [Vec3.dot]
  rw [if_pos]
  · norm_num
  · have hc : -(Real.sqrt 3 / 2) * 0 + -(1 / 2) * 1 + 0 * 0 = -(1 / 2 : ℝ) := by ring
    rw [hc]
    have : max 0 (1 - -(1 / 2 : ℝ) * -(1 / 2)) = 3 / 4 := by norm_num
    rw [this]
    rw [div_mul_eq_mul_div, le_div_iff₀ (by norm_num : (0:ℝ) < 1 / 2)]
    linarith

/-- At the concrete TIR scenario the refraction discriminant is `-2`. -/
theorem refract_discriminant_tir_eval :
    refract_discriminant tirIncident ⟨0, 1, 0⟩ (1 / 2) = -2 := by
  unfold refract_discriminant refract_params tirIncident
  simp only [Vec3.dot]
  rw [if_pos]
  · norm_num
  · norm_num

/-- A concrete Transparent material with relative index of refraction 1/2
(e.g. leaving glass into air), used for the TIR scenario. -/
def tirMaterial : Material := ⟨⟨1, 1, 1⟩, 0, 0, 1 / 2, 0, MaterialType.Transparent⟩

/-- Outgoing direction of the TIR scenario (`wo = -incident`). -/
def tirWo : Vec3 := ⟨Real.sqrt 3 / 2, 1 / 2, 0⟩

theorem tirWo_neg : -tirWo = tirIncident := by
  unfold tirWo tirIncident
  ext <;> norm_num

/-- Counterexample for C7: at `normal = (0,1,0)`, `wo = (√3/2, 1/2, 0)`,
`ior = 1/2` and draw `r = 0`, the refraction branch is chosen, the
discriminant is negative, and `Material::sample` returns the zero-length
zero vector, which differs from the pure mirror reflection of the incident
direction. -/
theorem transparent_tir_counterexample :
    (tirMaterial.sample ⟨0, 1, 0⟩ tirWo 0 e3).1 = Vec3.ofScalar 0 ∧
    Vec3.length (tirMaterial.sample ⟨0, 1, 0⟩ tirWo 0 e3).1 = 0 ∧
    (tirMaterial.sample ⟨0, 1, 0⟩ tirWo 0 e3).1 ≠ reflect (-tirWo) ⟨0, 1, 0⟩ := by
  have hfr : fresnel (-tirWo) ⟨0, 1, 0⟩ tirMaterial.ior = 0 := by
    rw [tirWo_neg]
    exact fresnel_tir_eval
  have hdiscr : refract_discriminant (-tirWo) ⟨0, 1, 0⟩ tirMaterial.ior = -2 := by
    rw [tirWo_neg]
    exact refract_discriminant_tir_eval
  have hz : (tirMaterial.sample ⟨0, 1, 0⟩ tirWo 0 e3).1 = Vec3.ofScalar 0 := by
    unfold Material.sample
    simp only [show tirMaterial.material = MaterialType.Transparent from rfl]
    rw [if_pos (by rw [hfr])]
    exact refract_tir_zero _ _ _ (by rw [hdiscr]; norm_num)
  have hlen : Vec3.length (tirMaterial.sample ⟨0, 1, 0⟩ tirWo 0 e3).1 = 0 := by
    rw [hz]
    unfold Vec3.length Vec3.dot
    norm_num
  refine ⟨hz, hlen, ?_⟩
  rw [hz, tirWo_neg]
  intro h
  have hy := congrArg Vec3.y h
  unfold reflect Vec3.dot tirIncident at hy
  simp only [Vec3.sub_y, Vec3.smul_y, Vec3.ofScalar_y] at hy
  norm_num at hy

/-- Witness for the amended C7 theorem at the concrete TIR scenario. -/
theorem transparent_tir_returns_zero_witness :
    tirMaterial.material = MaterialType.Transparent ∧
    (0 : ℝ) ≤ fresnel (-tirWo) ⟨0, 1, 0⟩ tirMaterial.ior ∧
    refract_discriminant (-tirWo) ⟨0, 1, 0⟩ tirMaterial.ior < 0 ∧
    ((tirMaterial.sample ⟨0, 1, 0⟩ tirWo 0 e3).1 = Vec3.ofScalar 0 ∧
     Vec3.length (tirMaterial.sample ⟨0, 1, 0⟩ tirWo 0 e3).1 = 0) := by
  have hfr : fresnel (-tirWo) ⟨0, 1, 0⟩ tirMaterial.ior = 0 := by
    rw [tirWo_neg]
    exact fresnel_tir_eval
  have hdiscr : refract_discriminant (-tirWo) ⟨0, 1, 0⟩ tirMaterial.ior = -2 := by
    rw [tirWo_neg]
    exact refract_discriminant_tir_eval
  exact ⟨rfl, by rw [hfr], by rw [hdiscr]; norm_num,
    transparent_tir_returns_zero tirMaterial ⟨0, 1, 0⟩ tirWo 0 e3 rfl
      (by rw [hfr]) (by rw [hdiscr]; norm_num)⟩

/-- The cross product of a unit `w` with its helper axis is never zero: its
squared length is at least `1 - 0.81` on the X-helper branch and at least
`0.81` on the Y-helper branch. -/
theorem helper_cross_sq_pos (w : Vec3) (hww : Vec3.dot w w = 1) :
    0 < Vec3.dot (Vec3.cross w (helper_axis w)) (Vec3.cross w (helper_axis w)) := by
  unfold helper_axis
  by_cases hx : 0.9 < |w.x|
  · rw [if_pos hx]
    have h2 : 0.81 < w.x * w.x := by
      have habs : |w.x| * |w.x| = w.x * w.x := abs_mul_abs_self w.x
      nlinarith [abs_nonneg w.x]
    unfold Vec3.cross Vec3.dot
    simp only
    nlinarith [sq_nonneg w.z]
  · rw [if_neg hx]
    push_neg at hx
    have h2 : w.x * w.x ≤ 0.81 := by
      have habs : |w.x| * |w.x| = w.x * w.x := abs_mul_abs_self w.x
      nlinarith [abs_nonneg w.x]
    unfold Vec3.dot at hww
    unfold Vec3.cross Vec3.dot
    simp only
    nlinarith

/-- Claim C8: for a unit `w`, the basis built by `Onb::new(w)` has three
pairwise-orthogonal, unit-length axes, and `transform((0,0,1))` returns
exactly `w`. -/
theorem onb_orthonormal (w : Vec3) (hw : Vec3.length w = 1) :
    Vec3.dot (Onb.new w).right (Onb.new w).front = 0 ∧
    Vec3.dot (Onb.new w).right (Onb.new w).up = 0 ∧
    Vec3.dot (Onb.new w).front (Onb.new w).up = 0 ∧
    Vec3.length (Onb.new w).right = 1 ∧
    Vec3.length (Onb.new w).front = 1 ∧
    Vec3.length (Onb.new w).up = 1 ∧
    (Onb.new w).transform ⟨0, 0, 1⟩ = w := by
  have hww : Vec3.dot w w = 1 := (Vec3.length_eq_one_iff w).mp hw
  have hcc := helper_cross_sq_pos w hww
  set a := helper_axis w with ha
  set c := Vec3.cross w a with hc
  set s := Real.sqrt (Vec3.dot c c) with hs
  have hss : s * s = Vec3.dot c c := Real.mul_self_sqrt hcc.le
  have hs0 : s ≠ 0 := ne_of_gt (Real.sqrt_pos.mpr hcc)
  have hup : (Onb.new w).up = w := rfl
  have hfront : (Onb.new w).front = c / s := rfl
  have hright : (Onb.new w).right = Vec3.cross w (c / s) := rfl
  have hwc : Vec3.dot w c = 0 := by
    rw [Vec3.dot_comm]
    exact Vec3.dot_cross_left w a
  have hfront_front : Vec3.dot ((Onb.new w).front) ((Onb.new w).front) = 1 := by
    rw [hfront, Vec3.dot_divs, Vec3.dot_divs_left, div_div, hss,
      div_self (ne_of_gt hcc)]
  have hw_front : Vec3.dot w ((Onb.new w).front) = 0 := by
    rw [hfront, Vec3.dot_divs, hwc, zero_div]
  have hright_right : Vec3.dot ((Onb.new w).right) ((Onb.new w).right) = 1 := by
    rw [hright, Vec3.dot_cross_self]
    rw [show Vec3.dot w (c / s) = Vec3.dot w ((Onb.new w).front) from rfl, hw_front]
    rw [show Vec3.dot (c / s) (c / s) =
      Vec3.dot ((Onb.new w).front) ((Onb.new w).front) from rfl, hfront_front]
    ring_nf
    exact hww
  refine ⟨?_, ?_, ?_, ?_, ?_, ?_, ?_⟩
  · rw [hright, hfront]
    exact Vec3.dot_cross_right w (c / s)
  · rw [hright, hup]
    exact Vec3.dot_cross_left w (c / s)
  · rw [hup]
    rw [Vec3.dot_comm]
    exact hw_front
  · rw [Vec3.length, hright_right, Real.sqrt_one]
  · rw [Vec3.length, hfront_front, Real.sqrt_one]
  · rw [hup]
    exact hw
  · rw [Onb.transform, hup]
    ext <;> simp

/-- Witness for C8 at `w = (0,0,1)`. -/
theorem onb_orthonormal_witness :
    Vec3.length e3 = 1 ∧
    (Vec3.dot (Onb.new e3).right (Onb.new e3).front = 0 ∧
     Vec3.dot (Onb.new e3).right (Onb.new e3).up = 0 ∧
     Vec3.dot (Onb.new e3).front (Onb.new e3).up = 0 ∧
     Vec3.length (Onb.new e3).right = 1 ∧
     Vec3.length (Onb.new e3).front = 1 ∧
     Vec3.length (Onb.new e3).up = 1 ∧
     (Onb.new e3).transform ⟨0, 0, 1⟩ = e3) := by
  have hlen : Vec3.length e3 = 1 := by
    simp [Vec3.length, Vec3.dot, e3, Real.sqrt_one]
  exact ⟨hlen, onb_orthonormal e3 hlen⟩

/-- Claim C5: with chunk size `⌊width·height / worker_count⌋` (at least one
pixel per chunk, i.e. `worker_count ≤ width·height`), the per-worker chunks
are pairwise disjoint, their union covers every pixel index exactly once,
and `get_xy` maps distinct indices to distinct pixel coordinates. -/
theorem worker_partition (width height worker_count : ℕ)
    (hw : 0 < width) (hk : 0 < worker_count)
    (hkn : worker_count ≤ width * height) :
    (∀ w1 w2, w1 ≠ w2 →
      Disjoint
        (chunk_indices (width * height) (chunk_size (width * height) worker_count) w1)
        (chunk_indices (width * height) (chunk_size (width * height) worker_count) w2)) ∧
    (Finset.range
        (num_chunks (width * height) (chunk_size (width * height) worker_count))).biUnion
      (chunk_indices (width * height) (chunk_size (width * height) worker_count)) =
      Finset.range (width * height) ∧
    (∀ i j, get_xy i width = get_xy j width → i = j) := by
  set n := width * height with hn
  set cs := chunk_size n worker_count with hcs
  have hcs1 : 1 ≤ cs := (Nat.one_le_div_iff hk).mpr hkn
  have hn1 : 1 ≤ n := le_trans hk hkn
  refine ⟨?_, ?_, ?_⟩
  · intro w1 w2 hne
    have key : ∀ a b : ℕ, a < b →
        Disjoint (chunk_indices n cs a) (chunk_indices n cs b) := by
      intro a b hab
      rw [Finset.disjoint_left]
      intro i hia hib
      rw [chunk_indices, Finset.mem_Ico] at hia hib
      have h1 : i < (a + 1) * cs := lt_of_lt_of_le hia.2 (min_le_left _ _)
      have h2 : (a + 1) * cs ≤ b * cs := Nat.mul_le_mul_right cs hab
      omega
    rcases lt_or_gt_of_ne hne with h | h
    · exact key w1 w2 h
    · exact (key w2 w1 h).symm
  · apply Finset.ext
    intro i
    simp only [Finset.mem_biUnion, Finset.mem_range, chunk_indices,
      Finset.mem_Ico]
    constructor
    · rintro ⟨w, _, _, hi2⟩
      exact lt_of_lt_of_le hi2 (min_le_right _ _)
    · intro hi
      refine ⟨i / cs, ?_, Nat.div_mul_le_self i cs, ?_⟩
      · have hle : i / cs ≤ (n - 1) / cs :=
          Nat.div_le_div_right (by omega)
        have heq : (n + cs - 1) / cs = (n - 1) / cs + 1 := by
          rw [show n + cs - 1 = (n - 1) + cs by omega,
            Nat.add_div_right _ (by omega)]
        rw [num_chunks, heq]
        omega
      · have hmod := Nat.div_add_mod i cs
        have hmlt : i % cs < cs := Nat.mod_lt i (by omega)
        have : i < (i / cs + 1) * cs := by
          have : (i / cs + 1) * cs = cs * (i / cs) + cs := by ring
          omega
        exact lt_min this hi
  · intro i j hij
    rw [get_xy, get_xy, Prod.mk.injEq] at hij
    rw [← Nat.div_add_mod i width, ← Nat.div_add_mod j width, hij.1, hij.2]

/-- Witness for C5 on a 4×3 framebuffer split across 5 workers
(chunk size 2, six chunks). -/
theorem worker_partition_witness :
    (0 < 4 ∧ 0 < 5 ∧ 5 ≤ 4 * 3) ∧
    ((∀ w1 w2, w1 ≠ w2 →
      Disjoint (chunk_indices (4 * 3) (chunk_size (4 * 3) 5) w1)
        (chunk_indices (4 * 3) (chunk_size (4 * 3) 5) w2)) ∧
    (Finset.range (num_chunks (4 * 3) (chunk_size (4 * 3) 5))).biUnion
      (chunk_indices (4 * 3) (chunk_size (4 * 3) 5)) = Finset.range (4 * 3) ∧
    (∀ i j, get_xy i 4 = get_xy j 4 → i = j)) :=
  ⟨⟨by decide, by decide, by decide⟩,
    worker_partition 4 3 5 (by decide) (by decide) (by decide)⟩

/-- Ray from the origin along +Z. -/
def bugRay : Ray := ⟨⟨0, 0, 0⟩, ⟨0, 0, 1⟩⟩

/-- A triangle in the plane `z = -5`, i.e. entirely BEHIND `bugRay`. -/
def bugTriangle : Triangle := ⟨⟨-1, -1, -5⟩, ⟨0, 1, -5⟩, ⟨1, -1, -5⟩⟩

theorem sqrt_sixteen : Real.sqrt 16 = 4 := by
  rw [show (16 : ℝ) = 4 ^ 2 by norm_num, Real.sqrt_sq (by norm_num : (0:ℝ) ≤ 4)]

theorem bugTriangle_hit_eval :
    Triangle.hit bugTriangle bugRay 0 (some 10) =
      some ⟨-5, ⟨0, 0, -1⟩, ⟨0, 0, -5⟩, 0⟩ := by
  unfold Triangle.hit bugTriangle bugRay
  norm_num [Vec3.cross, Vec3.dot, Vec3.normalize, Vec3.length, Ray.pointAt,
    gtMax, f64_EPSILON, sqrt_sixteen]
  refine ⟨?_, ?_⟩ <;> ext <;> norm_num

/-- A triangle in the plane `z = 7`, in front of `bugRay` but farther than
`nearTriangle`. -/
def farTriangle : Triangle := ⟨⟨-1, -1, 7⟩, ⟨0, 1, 7⟩, ⟨1, -1, 7⟩⟩

/-- A triangle in the plane `z = 5`. -/
def nearTriangle : Triangle := ⟨⟨-1, -1, 5⟩, ⟨0, 1, 5⟩, ⟨1, -1, 5⟩⟩

/-- A mesh listing the far triangle before the near one. -/
def bugMesh : Mesh := ⟨[farTriangle, nearTriangle]⟩

theorem farTriangle_hit_eval :
    Triangle.hit farTriangle bugRay 0 (some 10) =
      some ⟨7, ⟨0, 0, -1⟩, ⟨0, 0, 7⟩, 0⟩ := by
  unfold Triangle.hit farTriangle bugRay
  norm_num [Vec3.cross, Vec3.dot, Vec3.normalize, Vec3.length, Ray.pointAt,
    gtMax, f64_EPSILON, sqrt_sixteen]
  refine ⟨?_, ?_⟩ <;> ext <;> norm_num

theorem nearTriangle_hit_eval :
    Triangle.hit nearTriangle bugRay 0 (some 10) =
      some ⟨5, ⟨0, 0, -1⟩, ⟨0, 0, 5⟩, 0⟩ := by
  unfold Triangle.hit nearTriangle bugRay
  norm_num [Vec3.cross, Vec3.dot, Vec3.normalize, Vec3.length, Ray.pointAt,
    gtMax, f64_EPSILON, sqrt_sixteen]
  refine ⟨?_, ?_⟩ <;> ext <;> norm_num

/-- A scene whose only object is a mesh holding the behind-the-origin
triangle. -/
def bugScene : Scene := ⟨⟨0, 0, 0⟩, [], [⟨Geometry.MESH ⟨[bugTriangle]⟩, demoLambert⟩]⟩

/-- Claim C1, evaluated at its failing inputs (cited as a code bug).
`Triangle::hit`'s range rejection reads `if t < min_t && t > max_t`
(src/geometry.rs line 237), a conjunction no `t` satisfies when
`min_t < max_t`, so with range `(0, 10)` it returns a hit at `t = -5`,
behind the ray origin; the same out-of-range hit flows unchecked through
`Mesh::hit` into `Scene::hit`, which returns it; and `Mesh::hit` returns
the FIRST intersected triangle in list order (`t = 7`), not the nearest
one (`t = 5`). -/
theorem hit_distance_range_violated :
    (Triangle.hit bugTriangle bugRay 0 (some 10) =
        some ⟨-5, ⟨0, 0, -1⟩, ⟨0, 0, -5⟩, 0⟩ ∧
      ¬(0 < (-5 : ℝ) ∧ (-5 : ℝ) < 10)) ∧
    Scene.hit bugScene bugRay 0 (some 10) =
        some ⟨-5, ⟨0, 0, -1⟩, ⟨0, 0, -5⟩, 0⟩ ∧
    (Mesh.hit bugMesh bugRay 0 (some 10) = some ⟨7, ⟨0, 0, -1⟩, ⟨0, 0, 7⟩, 0⟩ ∧
      Triangle.hit nearTriangle bugRay 0 (some 10) =
        some ⟨5, ⟨0, 0, -1⟩, ⟨0, 0, 5⟩, 0⟩ ∧
      nearTriangle ∈ bugMesh.triangles ∧ (5 : ℝ) < 7) := by
  refine ⟨⟨bugTriangle_hit_eval, by norm_num⟩, ?_, ?_, nearTriangle_hit_eval,
    by simp [bugMesh], by norm_num⟩
  · simp only [Scene.hit, bugScene, Scene.hitAux, Geometry.hit, Mesh.hit,
      List.findSome?, bugTriangle_hit_eval, ltMax]
    norm_num
  · unfold Mesh.hit bugMesh
    simp only [List.findSome?, farTriangle_hit_eval]

/-- A scene with no objects never reports an intersection. -/
theorem empty_scene_hit_none (scene : Scene) (hobj : scene.objects = [])
    (ray : Ray) (min_t : ℝ) (max_t : Option ℝ) :
    Scene.hit scene ray min_t max_t = none := by
  unfold Scene.hit
  rw [hobj]
  rfl

/-- Amended C4: for every scene whose object list is empty, both
`trace_loop_2` and `Renderer::trace` return the unattenuated background
color for every ray and every bounce budget of AT LEAST ONE; with a bounce
budget of zero `trace_loop_2` returns black instead (and so does
`Renderer::trace` at depth zero). -/
theorem empty_scene_returns_background (scene : Scene) (ray : Ray)
    (rnd : RndStream) (b : ℕ) (hobj : scene.objects = []) (hb : 1 ≤ b) :
    trace_loop_2 ray scene b rnd = Except.ok scene.background ∧
    ∀ (trnd : TraceRnd) (fuel depth : ℕ), 1 ≤ fuel → 1 ≤ depth →
      Renderer.trace scene trnd fuel ray depth = some scene.background := by
  constructor
  · obtain ⟨b', rfl⟩ : ∃ b', b = b' + 1 := ⟨b - 1, by omega⟩
    unfold trace_loop_2 trace_loop_2_go
    rw [empty_scene_hit_none scene hobj]
    have : Vec3.ofScalar 0 + scene.background * Vec3.ofScalar 1 =
        scene.background := by
      ext <;> simp
    rw [this]
  · intro trnd fuel depth hfuel hdepth
    obtain ⟨f, rfl⟩ : ∃ f, fuel = f + 1 := ⟨fuel - 1, by omega⟩
    unfold Renderer.trace
    rw [if_pos (by omega : 0 < depth), empty_scene_hit_none scene hobj]

/-- An empty scene with a non-black background. -/
def emptyScene : Scene := ⟨⟨1 / 2, 0, 1⟩, [], []⟩

/-- Constant random streams. -/
def constRnd : RndStream := ⟨fun _ => e3, fun _ _ => e3⟩

/-- Constant random streams for the recursive tracer. -/
def constTraceRnd : TraceRnd := ⟨fun _ => 0, fun _ => e3⟩

/-- Counterexample for C4: with a bounce budget of ZERO the integrator
returns black, not the (non-black) background: `trace_loop_2`'s loop body
never runs and the accumulated radiance is still `Vec3::from(0.0)`, and
`Renderer::trace` at depth 0 returns `Vec3::from(0.0)` likewise. -/
theorem empty_scene_zero_bounce_black :
    trace_loop_2 bugRay emptyScene 0 constRnd = Except.ok (Vec3.ofScalar 0) ∧
    Renderer.trace emptyScene constTraceRnd 1 bugRay 0 = some (Vec3.ofScalar 0) ∧
    emptyScene.background ≠ Vec3.ofScalar 0 := by
  refine ⟨rfl, ?_, ?_⟩
  · unfold Renderer.trace
    norm_num
  · intro h
    have hx := congrArg Vec3.x h
    simp [emptyScene] at hx

/-- Witness for the amended C4 theorem: empty scene, one bounce. -/
theorem empty_scene_returns_background_witness :
    emptyScene.objects = [] ∧ 1 ≤ 1 ∧
    (trace_loop_2 bugRay emptyScene 1 constRnd = Except.ok emptyScene.background ∧
     ∀ (trnd : TraceRnd) (fuel depth : ℕ), 1 ≤ fuel → 1 ≤ depth →
       Renderer.trace emptyScene trnd fuel bugRay depth = some emptyScene.background) :=
  ⟨rfl, le_refl 1,
    empty_scene_returns_background emptyScene bugRay constRnd 1 rfl (le_refl 1)⟩

/-- Accepted hits recorded by `Scene::hit`'s loop carry the enumeration
index of the struck object, so the final index is always in range. -/
theorem Scene.hitAux_idx_lt (ray : Ray) (min_t : ℝ) (max_t : Option ℝ) :
    ∀ (objs : List Object) (i : ℕ) (closest : Option Hit),
      (∀ h', closest = some h' → h'.idx < i) →
      ∀ h, Scene.hitAux ray min_t max_t objs i closest = some h →
        h.idx < i + objs.length := by
  intro objs
  induction objs with
  | nil =>
      intro i closest hinv h heq
      simp only [Scene.hitAux] at heq
      simpa using hinv h heq
  | cons obj rest ih =>
      intro i closest hinv h heq
      simp only [Scene.hitAux] at heq
      split at heq
      · have hrec := ih (i + 1) _
          (fun h' hc => by cases hc; exact Nat.lt_succ_self i) h heq
        simp only [List.length_cons]
        omega
      · have hrec := ih (i + 1) closest
          (fun h' hc => Nat.lt_succ_of_lt (hinv h' hc)) h heq
        simp only [List.length_cons]
        omega

/-- The object index of a `Scene::hit` result is a valid index. -/
theorem Scene.hit_idx_lt (s : Scene) (ray : Ray) (min_t : ℝ) (max_t : Option ℝ)
    (h : Hit) (hh : Scene.hit s ray min_t max_t = some h) :
    h.idx < s.objects.length := by
  unfold Scene.hit at hh
  rcases haux : Scene.hitAux ray min_t max_t s.objects 0 none with _ | h'
  · rw [haux] at hh
    exact absurd hh (by simp)
  · rw [haux] at hh
    dsimp only at hh
    have hlt : h'.idx < s.objects.length := by
      simpa using Scene.hitAux_idx_lt ray min_t max_t s.objects 0 none
        (by intro h'' hc; cases hc) h' haux
    by_cases hc : ltMax h'.t max_t
    · rw [if_pos hc] at hh
      cases hh
      exact hlt
    · rw [if_neg hc] at hh
      exact absurd hh (by simp)

/-- Claim C6: `trace_loop_2` (the integrator `Renderer::render` runs, via
`render_multithreaded`) asserts `scene.lights.len() == 1` as soon as a
traced ray hits an object: for every scene whose lights list does not have
length one and every positive bounce budget, if the scene query reports a
hit for the incident ray, the trace panics at the assertion and never
returns a radiance value.  Contrapositive: a trace that completes had
exactly one light or never hit geometry. -/
theorem trace_loop_2_asserts_single_light (scene : Scene) (ray : Ray)
    (rnd : RndStream) (b : ℕ) (hlights : scene.lights.length ≠ 1) (hb : 1 ≤ b)
    (h : Hit) (hhit : Scene.hit scene ray (1 / 1000) none = some h) :
    trace_loop_2 ray scene b rnd = Except.error PanicKind.assertionFailed ∧
    ∀ v, trace_loop_2 ray scene b rnd ≠ Except.ok v := by
  have herr : trace_loop_2 ray scene b rnd =
      Except.error PanicKind.assertionFailed := by
    obtain ⟨b', rfl⟩ : ∃ b', b = b' + 1 := ⟨b - 1, by omega⟩
    unfold trace_loop_2 trace_loop_2_go
    rw [hhit]
    have hidx := Scene.hit_idx_lt scene ray (1 / 1000) none h hhit
    have hex : ∃ obj, scene.objects.get? h.idx = some obj :=
      ⟨scene.objects.get ⟨h.idx, hidx⟩, List.get?_eq_get hidx⟩
    obtain ⟨obj, hobj⟩ := hex
    dsimp only
    rw [hobj]
    simp only [if_neg hlights]
  exact ⟨herr, fun v hv => by rw [herr] at hv; exact absurd hv (by simp)⟩

/-- A unit sphere at (0,0,5), hit by `bugRay` at distance 4. -/
def demoSphere : Sphere := ⟨⟨0, 0, 5⟩, 1⟩

theorem demoSphere_hit_eval :
    Sphere.hit demoSphere bugRay (1 / 1000) none =
      some ⟨4, ⟨0, 0, -1⟩, ⟨0, 0, 4⟩, 0⟩ := by
  unfold Sphere.hit demoSphere bugRay
  norm_num [Vec3.dot, Ray.pointAt, ltMax, Real.sqrt_one]
  refine ⟨?_, ?_⟩ <;> ext <;> norm_num

/-- A scene with TWO entries in its lights list and one sphere object. -/
def twoLightScene : Scene :=
  ⟨⟨0, 0, 0⟩, [0, 0], [⟨Geometry.SPHERE demoSphere, demoLambert⟩]⟩

theorem twoLightScene_hit_eval :
    Scene.hit twoLightScene bugRay (1 / 1000) none =
      some ⟨4, ⟨0, 0, -1⟩, ⟨0, 0, 4⟩, 0⟩ := by
  simp only [Scene.hit, twoLightScene, Scene.hitAux, Geometry.hit,
    demoSphere_hit_eval, ltMax, if_true]

/-- Witness for C6: a two-light scene whose single sphere is hit panics. -/
theorem trace_loop_2_asserts_single_light_witness :
    twoLightScene.lights.length ≠ 1 ∧ 1 ≤ 1 ∧
    Scene.hit twoLightScene bugRay (1 / 1000) none =
      some ⟨4, ⟨0, 0, -1⟩, ⟨0, 0, 4⟩, 0⟩ ∧
    (trace_loop_2 bugRay twoLightScene 1 constRnd =
        Except.error PanicKind.assertionFailed ∧
      ∀ v, trace_loop_2 bugRay twoLightScene 1 constRnd ≠ Except.ok v) :=
  ⟨by norm_num [twoLightScene], le_refl 1, twoLightScene_hit_eval,
    trace_loop_2_asserts_single_light twoLightScene bugRay constRnd 1
      (by norm_num [twoLightScene]) (le_refl 1) _ twoLightScene_hit_eval⟩

end

end Raytracer
